import Mathlib

/-!
# message-pusher: channel dispatch and message lifecycle

A shallow embedding of

* `channel/wechat-corp-account.go` (`parseWechatCorpAccountAppId`,
  `WeChatCorpAccountTokenStoreItem.Key`, `SendWeChatCorpMessage`),
* `model/message.go` (`UpdateAndInsert`, `UpdateStatus`, `Delete`,
  `DeleteMessageById`),
* `controller/message.go` (`saveAndSendMessage`),

followed by the properties proved about them.

Conventions.  A Go `string` is a Lean `String`; a Go `error` is an
`Option String` (`none` is `nil`, `some e` carries the message); a Go pointer
argument that the code tests against `nil` is an `Option`.  Calls that leave
the process (the token store, HTTP, the database, the async queue) are
recorded in an explicit trace of events, in program order.
-/

namespace MessagePusher

/-! ## Go library functions used by the source -/

/-- Pieces of a character list between occurrences of `sep`. -/
def splitChars (sep : Char) : List Char → List (List Char)
  | [] => [[]]
  | c :: cs =>
    if c = sep then [] :: splitChars sep cs
    else
      match splitChars sep cs with
      | [] => [[c]]
      | p :: ps => (c :: p) :: ps

/-- Go `strings.Split(s, sep)` for a separator of one byte, the only way the
source calls it (`strings.Split(appId, "|")`): the substrings of `s` between
the occurrences of `sep`; a string without `sep` gives the one-element slice
`[s]`. -/
def strings.Split (s : String) (sep : Char) : List String :=
  (splitChars sep s.data).map String.mk

/-- Go `strings.Join(parts, sep)` for a one-byte separator. -/
def strings.Join (parts : List String) (sep : Char) : String :=
  String.mk (List.intercalate [sep] (parts.map String.data))

/-! ## `model` types -/

/-- Go struct `model.Article`. -/
structure Article where
  Title : String
  Description : String
  URL : String
  PicURL : String
  ThumbMediaID : String
  Author : String
  ContentSourceURL : String
  Content : String
  Digest : String
  deriving DecidableEq, Repr

/-- Modelled from the spec: the constants `common.MessageSendStatus*` (package
`common` is not part of the sources at hand).  The spec lists the status
values `pending`, `async_pending`, `sent`, `failed` and `unknown` as one
enumeration; the integers behind them are never inspected by the code
embedded here, only compared and stored. -/
inductive MessageSendStatus where
  | Unknown
  | Pending
  | Sent
  | Failed
  | AsyncPending
  deriving DecidableEq, Repr

/-- Go struct `model.Message`; `Status` holds one of the
`common.MessageSendStatus*` constants. -/
structure Message where
  Id : Int
  UserId : Int
  Title : String
  Description : String
  Content : String
  URL : String
  Btntxt : String
  Channel : String
  Token : String
  HTMLContent : String
  Timestamp : Int
  Link : String
  To : String
  Status : MessageSendStatus
  OpenId : String
  Desp : String
  Short : String
  Async : Bool
  RenderMode : String
  Articles : List Article
  deriving DecidableEq, Repr

/-- The fields of `model.User` (declared outside the sources at hand) that the
embedded code reads. -/
structure User where
  Id : Int
  Username : String
  Token : String
  Channel : String
  Status : Int
  SaveMessageToDatabase : Int
  deriving DecidableEq, Repr

/-- The fields of `model.Channel` (declared outside the sources at hand) that
the embedded code reads; `Token` is a `*string` there, `Other` is the
client-type discriminator and `Type_` is the Go field `Type`. -/
structure Channel where
  Name : String
  Type_ : String
  AppId : String
  AccountId : String
  Secret : String
  Other : String
  Token : Option String
  Status : Int
  deriving DecidableEq, Repr

/-! ## `channel/wechat-corp-account.go` -/

/-- Go struct `WeChatCorpAccountTokenStoreItem`. -/
structure WeChatCorpAccountTokenStoreItem where
  CorpId : String
  AgentSecret : String
  AgentId : String
  AccessToken : String
  deriving DecidableEq, Repr

/-- Method `Key` of the token-store item: `i.CorpId + i.AgentId + i.AgentSecret`. -/
def WeChatCorpAccountTokenStoreItem.Key (i : WeChatCorpAccountTokenStoreItem) : String :=
  i.CorpId ++ i.AgentId ++ i.AgentSecret

/-- The `textcard` member of `wechatCorpMessageRequest`. -/
structure TextCardBody where
  Title : String
  Description : String
  URL : String
  Btntxt : String
  deriving DecidableEq, Repr

/-- An element of `News.Articles` in `wechatCorpMessageRequest`. -/
structure NewsArticle where
  Title : String
  Description : String
  URL : String
  PicURL : String
  deriving DecidableEq, Repr

/-- An element of `MpNews.Articles` in `wechatCorpMessageRequest`. -/
structure MpNewsArticle where
  Title : String
  ThumbMediaID : String
  Author : String
  ContentSourceURL : String
  Content : String
  Digest : String
  deriving DecidableEq, Repr

/-- Go struct `wechatCorpMessageRequest`; the one-field members `Text` and
`Markdown` are represented by their `Content`, the members `News` and `MpNews`
by their `Articles`. -/
structure wechatCorpMessageRequest where
  MessageType : String
  ToUser : String
  AgentId : String
  TextCard : TextCardBody
  Text : String
  Markdown : String
  News : List NewsArticle
  MpNews : List MpNewsArticle
  deriving DecidableEq, Repr

/-- Go struct `wechatCorpMessageResponse`. -/
structure wechatCorpMessageResponse where
  ErrorCode : Int
  ErrorMessage : String
  deriving DecidableEq, Repr

/-- The function `parseWechatCorpAccountAppId`: the Go triple
`(string, string, error)`. -/
def parseWechatCorpAccountAppId (appId : String) : String × String × Option String :=
  let parts := strings.Split appId '|'
  if parts.length ≠ 2 then ("", "", some "无效的微信企业号配置")
  else (parts.getD 0 "", parts.getD 1 "", none)

/-- What the call `http.Post` followed by decoding the response body can come
to: the post itself fails, the body does not decode, or a response envelope is
read. -/
inductive PostResult where
  | postError (err : String)
  | decodeError (err : String)
  | response (res : wechatCorpMessageResponse)
  deriving DecidableEq, Repr

/-- The collaborators of `SendWeChatCorpMessage` outside the sources at hand:
the token store (`TokenStoreGetToken`) and the third-party HTTP endpoint. -/
structure SendEnv where
  TokenStoreGetToken : String → String
  httpPost : String → wechatCorpMessageRequest → PostResult

/-- An outbound effect of `SendWeChatCorpMessage`, in program order: a token
lookup under a cache key, or the HTTP POST of a request to a URL. -/
inductive SendEvent where
  | TokenStoreGetToken (key : String)
  | httpPost (url : String) (body : wechatCorpMessageRequest)
  deriving DecidableEq, Repr

/-- The returned `error` of a send together with the effects it performed. -/
structure SendResult where
  err : Option String
  trace : List SendEvent
  deriving DecidableEq, Repr

/-- The zero value of `wechatCorpMessageRequest` with `ToUser` and `AgentId`
set, as the composite literal in `SendWeChatCorpMessage` builds it. -/
def wechatCorpMessageRequest.init (toUser agentId : String) : wechatCorpMessageRequest :=
  { MessageType := "", ToUser := toUser, AgentId := agentId,
    TextCard := { Title := "", Description := "", URL := "", Btntxt := "" },
    Text := "", Markdown := "", News := [], MpNews := [] }

/-- The block of `SendWeChatCorpMessage` that chooses the message type and
fills the matching payload (the `if clientType == "plugin" ... else if ...`
statement); `messageRequest` is the request built so far. -/
def fillMessageRequest (clientType : String) (message : Message)
    (messageRequest : wechatCorpMessageRequest) : wechatCorpMessageRequest :=
  if clientType = "plugin" then
    match message.Articles with
    | article0 :: _ =>
      if article0.Content ≠ "" ∧ article0.ThumbMediaID ≠ "" then
        { messageRequest with
          MessageType := "mpnews"
          MpNews := messageRequest.MpNews ++ message.Articles.map fun article =>
            { Title := article.Title, ThumbMediaID := article.ThumbMediaID,
              Author := article.Author, ContentSourceURL := article.ContentSourceURL,
              Content := article.Content, Digest := article.Digest } }
      else
        { messageRequest with
          MessageType := "news"
          News := messageRequest.News ++ message.Articles.map fun article =>
            { Title := article.Title, Description := article.Description,
              URL := article.URL, PicURL := article.PicURL } }
    | [] =>
      if message.Title ≠ "" then
        { messageRequest with
          MessageType := "textcard"
          TextCard := { Title := message.Title, Description := message.Description,
                        URL := message.URL, Btntxt := message.Btntxt } }
      else if message.Content ≠ "" then
        { messageRequest with MessageType := "text", Text := message.Content }
      else messageRequest
  else if message.Content ≠ "" then
    { messageRequest with MessageType := "markdown", Markdown := message.Content }
  else messageRequest

/-- The function `SendWeChatCorpMessage`.  `json.Marshal` of the request
struct (strings and slices of strings only) cannot fail, so its error branch
is not represented and the request itself stands for its JSON body. -/
def SendWeChatCorpMessage (env : SendEnv) (message : Option Message) (user : Option User)
    (channel_ : Option Channel) : SendResult :=
  match message, user, channel_ with
  | some message, some _, some channel_ =>
    let (corpId, agentId, err) := parseWechatCorpAccountAppId channel_.AppId
    match err with
    | some e => { err := some e, trace := [] }
    | none =>
      let userId := channel_.AccountId
      let clientType := channel_.Other
      let agentSecret := channel_.Secret
      let messageRequest := wechatCorpMessageRequest.init userId agentId
      let messageRequest :=
        if message.To ≠ "" then { messageRequest with ToUser := message.To } else messageRequest
      let messageRequest := fillMessageRequest clientType message messageRequest
      let key := corpId ++ agentId ++ agentSecret
      let accessToken := env.TokenStoreGetToken key
      let url := "https://qyapi.weixin.qq.com/cgi-bin/message/send?access_token=" ++ accessToken
      let trace := [SendEvent.TokenStoreGetToken key, SendEvent.httpPost url messageRequest]
      match env.httpPost url messageRequest with
      | .postError e => { err := some e, trace := trace }
      | .decodeError e => { err := some e, trace := trace }
      | .response res =>
        if res.ErrorCode ≠ 0 then { err := some res.ErrorMessage, trace := trace }
        else { err := none, trace := trace }
  | _, _, _ => { err := some "message, user or channel is nil", trace := [] }

/-- The `msgtype` fields of the requests posted in a trace, in order. -/
def postedMessageTypes : List SendEvent → List String
  | [] => []
  | .httpPost _ body :: rest => body.MessageType :: postedMessageTypes rest
  | .TokenStoreGetToken _ :: rest => postedMessageTypes rest

/-- The cache keys looked up in a trace, in order. -/
def lookedUpKeys : List SendEvent → List String
  | [] => []
  | .TokenStoreGetToken key :: rest => key :: lookedUpKeys rest
  | .httpPost _ _ :: rest => lookedUpKeys rest

/-- The format-selection policy in the words of the specification: with the
`plugin` discriminator, a non-empty article list is "rich-news" (`mpnews`) if
the first article has both a body and a thumbnail-media identifier and
"plain-news" (`news`) otherwise; else a title gives "interactive-card"
(`textcard`); else body content gives "plain-text" (`text`).  A discriminator
other than `plugin` forces "formatted-text" (`markdown`) whenever body content
is present.  Where the specification names no dialect the result is `none`. -/
def specDialect (discriminator : String) (message : Message) : Option String :=
  if discriminator = "plugin" then
    match message.Articles with
    | first :: _ =>
      if first.Content ≠ "" ∧ first.ThumbMediaID ≠ "" then some "mpnews" else some "news"
    | [] =>
      if message.Title ≠ "" then some "textcard"
      else if message.Content ≠ "" then some "text"
      else none
  else if message.Content ≠ "" then some "markdown"
  else none

/-! ## The database behind `model/message.go`

The table `messages` is the list of its rows, oldest first.  The calls into
the ORM are given the meaning they have for this table: `id` is the primary
key, `link` carries a unique index, and a statement without a `WHERE` clause
is refused. -/

/-- An error that the database reports for a reason outside the table contents
(a lost connection, a full disk), one per kind of call; `none` when it reports
none. -/
structure DBFaults where
  Create : Option String
  Update : Option String
  First : Option String
  Delete : Option String

/-- The id the database assigns to a row inserted without one: one more than
the largest id in the table. -/
def DB.nextId (rows : List Message) : Int :=
  (rows.map fun row => row.Id).foldr max 0 + 1

/-- The columns of a message: the fields tagged `gorm:"-"` or `gorm:"-:all"`
(`Token`, `HTMLContent`, `OpenId`, `Desp`, `Short`, `Async`) are not stored. -/
def DB.storedRow (message : Message) : Message :=
  { message with Token := "", HTMLContent := "", OpenId := "", Desp := "", Short := "",
                 Async := false }

/-- The call `DB.Create(message)`: the error, the message (its `Id` filled in
on success) and the table afterwards.  It fails on a fault, on an `Id` that a
row already has, and on a `Link` that a row already has. -/
def DB.Create (fault : Option String) (message : Message) (rows : List Message) :
    Option String × Message × List Message :=
  match fault with
  | some e => (some e, message, rows)
  | none =>
    if message.Id ≠ 0 ∧ ∃ row ∈ rows, row.Id = message.Id then
      (some "UNIQUE constraint failed: messages.id", message, rows)
    else if ∃ row ∈ rows, row.Link = message.Link then
      (some "UNIQUE constraint failed: messages.link", message, rows)
    else
      let message := if message.Id = 0 then { message with Id := DB.nextId rows } else message
      (none, message, rows ++ [DB.storedRow message])

/-- The call `DB.Model(message).Update("status", status)`: the error and the
table afterwards.  Without a primary key in `message` there is no `WHERE`
clause and the statement is refused; otherwise the rows with that id get the
status, and no matching row is not an error.  The `Status` field of the struct
in memory is not read afterwards by the code embedded here and is left as it
is. -/
def DB.UpdateStatusColumn (fault : Option String) (message : Message)
    (status : MessageSendStatus) (rows : List Message) : Option String × List Message :=
  match fault with
  | some e => (some e, rows)
  | none =>
    if message.Id = 0 then (some "WHERE conditions required", rows)
    else (none, rows.map fun row => if row.Id = message.Id then { row with Status := status } else row)

/-- The call `DB.Delete(message)`: the error and the table afterwards; the
rows with the primary key of `message` are removed. -/
def DB.Delete (fault : Option String) (message : Message) (rows : List Message) :
    Option String × List Message :=
  match fault with
  | some e => (some e, rows)
  | none =>
    if message.Id = 0 then (some "WHERE conditions required", rows)
    else (none, rows.filter fun row => row.Id ≠ message.Id)

/-- The call `DB.Where(Message{Id: id, UserId: userId}).First(&message)` for
non-zero `id` and `userId`: the first row whose `Id` and `UserId` both match,
or the error `record not found`. -/
def DB.FirstByIds (fault : Option String) (id userId : Int) (rows : List Message) :
    Except String Message :=
  match fault with
  | some e => .error e
  | none =>
    match rows.find? fun row => row.Id = id ∧ row.UserId = userId with
    | some row => .ok row
    | none => .error "record not found"

/-! ## `model/message.go` -/

/-- Method `UpdateAndInsert` of `Message`; `now` is `time.Now().Unix()`. -/
def Message.UpdateAndInsert (fault : Option String) (now : Int) (message : Message)
    (userId : Int) (rows : List Message) : Option String × Message × List Message :=
  let message := { message with Timestamp := now }
  let message := { message with UserId := userId }
  let message := { message with Status := MessageSendStatus.Pending }
  DB.Create fault message rows

/-- Method `UpdateStatus` of `Message`. -/
def Message.UpdateStatus (fault : Option String) (message : Message)
    (status : MessageSendStatus) (rows : List Message) : Option String × List Message :=
  DB.UpdateStatusColumn fault message status rows

/-- Method `Delete` of `Message`. -/
def Message.Delete (fault : Option String) (message : Message) (rows : List Message) :
    Option String × List Message :=
  DB.Delete fault message rows

/-- The function `DeleteMessageById`: the returned error and the table
afterwards. -/
def DeleteMessageById (faults : DBFaults) (id userId : Int) (rows : List Message) :
    Option String × List Message :=
  if id = 0 ∨ userId = 0 then (some "id 或 userId 为空！", rows)
  else
    match DB.FirstByIds faults.First id userId rows with
    | .error err => (some err, rows)
    | .ok message => Message.Delete faults.Delete message rows

/-! ## `controller/message.go` -/

/-- The state that `saveAndSendMessage` shares with the rest of the process:
the table `messages`, the ids pushed onto `channel.AsyncMessageQueue` and not
yet taken off, and the counter `common.MessageCount` (only ever incremented,
never read by the code embedded here, so its machine width plays no part). -/
structure World where
  messages : List Message
  AsyncMessageQueue : List Int
  MessageCount : Int
  deriving DecidableEq, Repr

/-- What `saveAndSendMessage` reads from outside the sources at hand: the
constants `common.ChannelStatusEnabled` and
`common.SaveMessageToDatabaseAllowed`, the settings
`common.MessagePersistenceEnabled` and `common.ServerAddress`, the value that
`common.GetUUID()` returns in this call, the clock, the database faults, and
the outcome of `channel.SendMessage` (its returned error). -/
structure Env where
  ChannelStatusEnabled : Int
  SaveMessageToDatabaseAllowed : Int
  MessagePersistenceEnabled : Bool
  ServerAddress : String
  GetUUID : String
  now : Int
  faults : DBFaults
  SendMessage : Message → User → Channel → Option String

/-- An effect of `saveAndSendMessage`, in program order: the insert of a
message with the error it returned, a status update for the message with a
given id, a push of an id onto the async queue, a call of
`channel.SendMessage` with the error it returned, and the start of the
goroutine that runs `syncMessageToUser`. -/
inductive Event where
  | Insert (message : Message) (err : Option String)
  | UpdateStatus (id : Int) (status : MessageSendStatus)
  | Enqueue (id : Int)
  | SendMessage (message : Message) (err : Option String)
  | syncMessageToUser (message : Message)
  deriving DecidableEq, Repr

/-- The state of a call of `saveAndSendMessage` when control leaves the
function body: the error being returned, the local `success`, the message
behind the pointer, the shared state and the effects so far. -/
structure Frame where
  err : Option String
  success : Bool
  message : Message
  world : World
  trace : List Event
  deriving DecidableEq, Repr

/-- The deferred closure of `saveAndSendMessage`, run when the function
returns: it picks the final status, writes it, and pushes the id of an async
message onto the queue.  A failed status update is only logged. -/
def deferredFinalization (env : Env) (f : Frame) : Frame :=
  let status := MessageSendStatus.Failed
  let status :=
    if f.message.Async then MessageSendStatus.AsyncPending
    else if f.success then MessageSendStatus.Sent else status
  let (_, rows) := Message.UpdateStatus env.faults.Update f.message status f.world.messages
  let f := { f with world := { f.world with messages := rows }
                    trace := f.trace ++ [Event.UpdateStatus f.message.Id status] }
  if f.message.Async then
    { f with world := { f.world with
                        AsyncMessageQueue := f.world.AsyncMessageQueue ++ [f.message.Id] }
             trace := f.trace ++ [Event.Enqueue f.message.Id] }
  else f

/-- The end of `saveAndSendMessage`, shared by both persistence branches: a
synchronous message is sent inline and a send error is returned; otherwise
`success` is set and `nil` is returned. -/
def sendInline (env : Env) (user : User) (channel_ : Channel) (f : Frame) : Frame :=
  if ¬ f.message.Async then
    match env.SendMessage f.message user channel_ with
    | some e =>
      { f with err := some e, trace := f.trace ++ [Event.SendMessage f.message (some e)] }
    | none =>
      { f with success := true, err := none,
               trace := f.trace ++ [Event.SendMessage f.message none] }
  else { f with success := true, err := none }

/-- The function `saveAndSendMessage`.  The result holds the returned error,
the message as the caller sees it afterwards, the shared state and the
effects performed.  The deferred closure is registered in the persistence
branch before the insert, so it runs on every return from that branch; the
calls of `common.SysError` only write to the log and leave no event. -/
def saveAndSendMessage (env : Env) (user : User) (message : Message) (channel_ : Channel)
    (world : World) : Frame :=
  if channel_.Status ≠ env.ChannelStatusEnabled then
    { err := some "该渠道已被禁用", success := false, message := message, world := world,
      trace := [] }
  else
    let world := { world with MessageCount := world.MessageCount + 1 }
    let message := { message with Link := env.GetUUID }
    let message :=
      if message.URL = "" then
        { message with URL := env.ServerAddress ++ "/message/" ++ message.Link }
      else message
    let success := false
    if env.MessagePersistenceEnabled = true ∨
        user.SaveMessageToDatabase = env.SaveMessageToDatabaseAllowed then
      let (err, inserted, rows) :=
        Message.UpdateAndInsert env.faults.Create env.now message user.Id world.messages
      let f : Frame :=
        { err := none, success := success, message := inserted,
          world := { world with messages := rows }, trace := [Event.Insert inserted err] }
      match err with
      | some e => deferredFinalization env { f with err := some e }
      | none =>
        let f := { f with trace := f.trace ++ [Event.syncMessageToUser f.message] }
        deferredFinalization env (sendInline env user channel_ f)
    else
      if message.Async then
        { err := some "异步发送消息需要用户具备消息持久化的权限", success := success,
          message := message, world := world, trace := [] }
      else
        let message := { message with Link := "unsaved" }
        let f : Frame :=
          { err := none, success := success, message := message, world := world,
            trace := [Event.syncMessageToUser message] }
        sendInline env user channel_ f

/-- The status updates issued in a trace, in order. -/
def statusUpdates (trace : List Event) : List MessageSendStatus :=
  trace.filterMap fun
    | .UpdateStatus _ status => some status
    | _ => none

/-- The ids pushed onto the async queue in a trace, in order. -/
def enqueuedIds (trace : List Event) : List Int :=
  trace.filterMap fun
    | .Enqueue id => some id
    | _ => none

/-- The inserts attempted in a trace, each with the error it returned. -/
def insertOutcomes (trace : List Event) : List (Option String) :=
  trace.filterMap fun
    | .Insert _ err => some err
    | _ => none

/-- The channel sends made in a trace, each with the error it returned. -/
def sendOutcomes (trace : List Event) : List (Option String) :=
  trace.filterMap fun
    | .SendMessage _ err => some err
    | _ => none

/-! ## Concrete inputs used by the examples below -/

/-- A message whose fields are all empty, not asynchronous. -/
def emptyMessage : Message :=
  { Id := 0, UserId := 0, Title := "", Description := "", Content := "", URL := "",
    Btntxt := "", Channel := "", Token := "", HTMLContent := "", Timestamp := 0,
    Link := "", To := "", Status := .Unknown, OpenId := "", Desp := "", Short := "",
    Async := false, RenderMode := "", Articles := [] }

/-- A message that carries a title and nothing else. -/
def titleOnlyMessage : Message := { emptyMessage with Title := "hello" }

/-- A user with id 1 who has set neither a token nor a default channel. -/
def sampleUser : User :=
  { Id := 1, Username := "root", Token := "", Channel := "", Status := 1,
    SaveMessageToDatabase := 0 }

/-- A WeChat corp channel with the given app id and client-type discriminator. -/
def sampleChannel (appId other : String) : Channel :=
  { Name := "corp", Type_ := "corp_app", AppId := appId, AccountId := "@all",
    Secret := "S", Other := other, Token := none, Status := 1 }

/-- A token store that answers `tok` and an endpoint that accepts every
request. -/
def sampleSendEnv : SendEnv :=
  { TokenStoreGetToken := fun _ => "tok"
    httpPost := fun _ _ => .response { ErrorCode := 0, ErrorMessage := "ok" } }

/-- A database that reports no fault. -/
def noFaults : DBFaults := { Create := none, Update := none, First := none, Delete := none }

/-- A process with persistence switched on, whose channel sends all succeed. -/
def sampleEnv : Env :=
  { ChannelStatusEnabled := 1, SaveMessageToDatabaseAllowed := 1,
    MessagePersistenceEnabled := true, ServerAddress := "https://push.example",
    GetUUID := "uuid-1", now := 1700000000, faults := noFaults,
    SendMessage := fun _ _ _ => none }

/-- An empty table, an empty queue and a counter at zero. -/
def emptyWorld : World := { messages := [], AsyncMessageQueue := [], MessageCount := 0 }

/-- A stored message of user 1 that has been delivered. -/
def sentRow : Message :=
  { emptyMessage with Id := 1, UserId := 1, Title := "done", Link := "link-1",
                      Status := .Sent }

/-- An asynchronous message with a title. -/
def asyncMessage : Message := { titleOnlyMessage with Async := true }

/-- The process of `sampleEnv` with a database that refuses every insert. -/
def insertFailsEnv : Env :=
  { sampleEnv with faults := { noFaults with Create := some "database is locked" } }

/-- The process of `sampleEnv` with a channel whose sends all fail. -/
def sendFailsEnv : Env :=
  { sampleEnv with SendMessage := fun _ _ _ => some "errcode 40014" }

/-- The process of `sampleEnv` with persistence switched off. -/
def noPersistenceEnv : Env := { sampleEnv with MessagePersistenceEnabled := false }

/-! ## Authorization and resend (`controller/message.go`, `model/message.go`) -/

/-- The function `authMessage`; `channelToken` is a `*string` in the source. -/
def authMessage (messageToken userToken : String) (channelToken : Option String) : Bool :=
  let afterUserToken : Bool :=
    match channelToken with
    | some token =>
      if token ≠ "" then
        if messageToken ≠ token then false else true
      else true
    | none => true
  if userToken ≠ "" then
    if messageToken = userToken then true else afterUserToken
  else afterUserToken

/-- The authorization step of `processMessage` (the statement
`if needAuth && !authMessage(...)`): the message of the 401 response it
sends, or `none` when the request goes on to `saveAndSendMessage`. -/
def processMessageAuth (needAuth : Bool) (message : Message) (user : User)
    (channel_ : Channel) : Option String :=
  if needAuth = true ∧ authMessage message.Token user.Token channel_.Token = false then
    if message.Token = "" then some "通道维度或用户维度设置了鉴权令牌，需要提供鉴权令牌"
    else some "无效的 token"
  else none

/-- The function `GetMessageByIds`: the Go pair `(*Message, error)`.  With a
zero `id` or `userId` the pointer is `nil`; otherwise it points to the struct
`Message{Id: id, UserId: userId}`, filled from the row when one is found. -/
def GetMessageByIds (fault : Option String) (id userId : Int) (rows : List Message) :
    Option Message × Option String :=
  if id = 0 ∨ userId = 0 then (none, some "id 或 userId 为空！")
  else
    let message := { emptyMessage with Id := id, UserId := userId }
    match DB.FirstByIds fault id userId rows with
    | .error err => (some message, some err)
    | .ok row => (some row, none)

/-- The lookups of the resend helper that live outside the sources at hand:
`model.GetUserById(userId, true)` and `model.GetChannelByName(name, userId)`,
each giving its result or its error. -/
structure ResendEnv where
  GetUserById : Int → Except String User
  GetChannelByName : String → Int → Except String Channel

/-- How a run of the resend helper ends: it dereferences a `nil` message (a
run-time fault in Go), or it returns an error value, leaving the shared state
and the effects of the dispatch it made. -/
inductive HelperOutcome where
  | nilDereference
  | returned (err : Option String) (world : World) (trace : List Event)
  deriving DecidableEq, Repr

/-- The closure `helper` of `ResendMessage`; `messageId` is
`strconv.Atoi(c.Param("id"))` (0 for a parameter that is not a number) and
`userId` is `c.GetInt("id")`.  The assignment `message.Id = 0` comes before the
test of `err`, so it is made through whatever pointer `GetMessageByIds`
returned. -/
def ResendMessage_helper (env : Env) (lookups : ResendEnv) (messageId userId : Int)
    (world : World) : HelperOutcome :=
  let (message, err) := GetMessageByIds env.faults.First messageId userId world.messages
  match message with
  | none => .nilDereference
  | some message =>
    let message := { message with Id := 0 }
    match err with
    | some e => .returned (some e) world []
    | none =>
      match lookups.GetUserById userId with
      | .error e => .returned (some e) world []
      | .ok user =>
        match lookups.GetChannelByName message.Channel user.Id with
        | .error e => .returned (some e) world []
        | .ok channel_ =>
          let r := saveAndSendMessage env user message channel_ world
          .returned r.err r.world r.trace

/-- A user who has set the push token `user-secret`. -/
def tokenUser : User := { sampleUser with Token := "user-secret" }

/-- Lookups that know the user `sampleUser` and one enabled `plugin` channel. -/
def sampleLookups : ResendEnv :=
  { GetUserById := fun _ => .ok sampleUser
    GetChannelByName := fun _ _ => .ok (sampleChannel "X|Y" "plugin") }

/-- A second user, with id 2, who owns no stored message. -/
def otherUser : User := { sampleUser with Id := 2, Username := "guest" }

/-- A push whose JSON body carries `"id": 1` next to a title: `PostPushMessage`
decodes the body into the message and nothing resets `Id` before
`saveAndSendMessage`. -/
def pushWithStoredId : Message := { titleOnlyMessage with Id := 1 }

/-- The push of `pushWithStoredId` with `"async": true`. -/
def asyncPushWithStoredId : Message := { pushWithStoredId with Async := true }

/-- A table that holds the one delivered message `sentRow` of user 1. -/
def sentWorld : World := { emptyWorld with messages := [sentRow] }

/-! ## Properties of the library model -/

theorem splitChars_ne_nil (sep : Char) (l : List Char) : splitChars sep l ≠ [] := by
  cases l with
  | nil => simp [splitChars]
  | cons c cs =>
    unfold splitChars
    split
    · simp
    · split <;> simp

theorem splitChars_length (sep : Char) (l : List Char) :
    (splitChars sep l).length = l.count sep + 1 := by
  induction l with
  | nil => simp [splitChars]
  | cons c cs ih =>
    unfold splitChars
    by_cases h : c = sep
    · subst h
      simp [ih]
    · have hne : (c == sep) = false := by simpa using h
      rw [if_neg h, List.count_cons, hne]
      cases hs : splitChars sep cs with
      | nil => exact absurd hs (splitChars_ne_nil sep cs)
      | cons p ps =>
        rw [hs] at ih
        simpa using ih

theorem splitChars_intercalate (sep : Char) (l : List Char) :
    List.intercalate [sep] (splitChars sep l) = l := by
  induction l with
  | nil => simp [splitChars, List.intercalate]
  | cons c cs ih =>
    unfold splitChars
    by_cases h : c = sep
    · subst h
      rw [if_pos rfl]
      cases hs : splitChars c cs with
      | nil => exact absurd hs (splitChars_ne_nil c cs)
      | cons p ps =>
        rw [hs] at ih
        rw [← ih]
        simp [List.intercalate, List.intersperse]
    · rw [if_neg h]
      cases hs : splitChars sep cs with
      | nil => exact absurd hs (splitChars_ne_nil sep cs)
      | cons p ps =>
        rw [hs] at ih
        rw [← ih]
        cases ps <;> simp [List.intercalate, List.intersperse]

theorem Split_length (s : String) (sep : Char) :
    (strings.Split s sep).length = s.data.count sep + 1 := by
  simp [strings.Split, splitChars_length]

theorem Join_Split (s : String) (sep : Char) :
    strings.Join (strings.Split s sep) sep = s := by
  simp [strings.Join, strings.Split, Function.comp_def, splitChars_intercalate]

/-! ## `parseWechatCorpAccountAppId` -/

theorem parse_err_iff (appId : String) :
    (parseWechatCorpAccountAppId appId).2.2 ≠ none ↔ (strings.Split appId '|').length ≠ 2 := by
  unfold parseWechatCorpAccountAppId
  by_cases h : (strings.Split appId '|').length ≠ 2
  · simp [h]
  · simp [h]

theorem parse_ok_of_count (appId : String) (h : appId.data.count '|' = 1) :
    (parseWechatCorpAccountAppId appId).2.2 = none := by
  have hl : (strings.Split appId '|').length = 2 := by rw [Split_length, h]
  by_contra hne
  exact (parse_err_iff appId).1 hne hl

theorem splitChars_of_not_mem (sep : Char) (l : List Char) (h : sep ∉ l) :
    splitChars sep l = [l] := by
  induction l with
  | nil => simp [splitChars]
  | cons c cs ih =>
    have hc : c ≠ sep := fun e => h (by simp [e])
    have hcs : sep ∉ cs := fun e => h (by simp [e])
    unfold splitChars
    rw [if_neg hc, ih hcs]

theorem splitChars_append (sep : Char) (x y : List Char) (h : sep ∉ x) :
    splitChars sep (x ++ sep :: y) = x :: splitChars sep y := by
  induction x with
  | nil => simp [splitChars]
  | cons c cs ih =>
    have hc : c ≠ sep := fun e => h (by simp [e])
    have hcs : sep ∉ cs := fun e => h (by simp [e])
    simp [splitChars, hc, ih hcs]

theorem parse_wellformed (X Y : String) (hX : '|' ∉ X.data) (hY : '|' ∉ Y.data) :
    parseWechatCorpAccountAppId (X ++ "|" ++ Y) = (X, Y, none) := by
  have hs : strings.Split (X ++ "|" ++ Y) '|' = [X, Y] := by
    unfold strings.Split
    have hd : (X ++ "|" ++ Y).data = X.data ++ '|' :: Y.data := by
      simp [String.data_append]
    rw [hd, splitChars_append _ _ _ hX, splitChars_of_not_mem _ _ hY]
    rfl
  unfold parseWechatCorpAccountAppId
  simp [hs]

/-- C3. `parseWechatCorpAccountAppId` reports an error exactly when splitting
the app id on `|` does not give two components, which is exactly when the app
id does not hold one `|`; when it succeeds its two results joined by `|` are
the app id again; and when it fails, `SendWeChatCorpMessage` returns that very
error with an empty trace: no token lookup and no outbound call. -/
theorem parseWechatCorpAccountAppId_error_iff (env : SendEnv) (message : Message)
    (user : User) (channel_ : Channel) :
    ((parseWechatCorpAccountAppId channel_.AppId).2.2 ≠ none ↔
        (strings.Split channel_.AppId '|').length ≠ 2) ∧
    ((strings.Split channel_.AppId '|').length ≠ 2 ↔ channel_.AppId.data.count '|' ≠ 1) ∧
    ((parseWechatCorpAccountAppId channel_.AppId).2.2 = none →
        strings.Join [(parseWechatCorpAccountAppId channel_.AppId).1,
          (parseWechatCorpAccountAppId channel_.AppId).2.1] '|' = channel_.AppId) ∧
    ((parseWechatCorpAccountAppId channel_.AppId).2.2 ≠ none →
        SendWeChatCorpMessage env (some message) (some user) (some channel_) =
          { err := (parseWechatCorpAccountAppId channel_.AppId).2.2, trace := [] }) := by
  refine ⟨parse_err_iff _, ?_, ?_, ?_⟩
  · rw [Split_length]; omega
  · intro hok
    have hl : (strings.Split channel_.AppId '|').length = 2 := by
      by_contra hne
      exact (parse_err_iff _).2 hne hok
    have hj := Join_Split channel_.AppId '|'
    match hs : strings.Split channel_.AppId '|', hl with
    | [p0, p1], _ =>
      rw [hs] at hj
      simpa [parseWechatCorpAccountAppId, hs] using hj
  · intro herr
    rcases hp : parseWechatCorpAccountAppId channel_.AppId with ⟨corpId, agentId, err⟩
    rw [hp] at herr
    cases err with
    | none => exact absurd rfl herr
    | some e => simp only [SendWeChatCorpMessage, hp]

/-- C3, at two app ids: `X|Y` parses and joins back, `XY` is refused and the
send stops before any effect. -/
theorem parseWechatCorpAccountAppId_error_iff_witness :
    (strings.Join [(parseWechatCorpAccountAppId (sampleChannel "X|Y" "plugin").AppId).1,
        (parseWechatCorpAccountAppId (sampleChannel "X|Y" "plugin").AppId).2.1] '|' =
      (sampleChannel "X|Y" "plugin").AppId) ∧
    SendWeChatCorpMessage sampleSendEnv (some titleOnlyMessage) (some sampleUser)
        (some (sampleChannel "XY" "plugin")) =
      { err := (parseWechatCorpAccountAppId (sampleChannel "XY" "plugin").AppId).2.2,
        trace := [] } :=
  ⟨(parseWechatCorpAccountAppId_error_iff sampleSendEnv titleOnlyMessage sampleUser
      (sampleChannel "X|Y" "plugin")).2.2.1 (by decide),
   (parseWechatCorpAccountAppId_error_iff sampleSendEnv titleOnlyMessage sampleUser
      (sampleChannel "XY" "plugin")).2.2.2 (by decide)⟩

/-! ## `SendWeChatCorpMessage` -/

/-- With an app id that parses, a send performs exactly a token lookup under
the concatenated key and then one POST, whatever the endpoint answers. -/
theorem send_trace_eq (env : SendEnv) (message : Message) (user : User) (channel_ : Channel)
    (corpId agentId : String)
    (hp : parseWechatCorpAccountAppId channel_.AppId = (corpId, agentId, none)) :
    (SendWeChatCorpMessage env (some message) (some user) (some channel_)).trace =
      [SendEvent.TokenStoreGetToken (corpId ++ agentId ++ channel_.Secret),
       SendEvent.httpPost
        ("https://qyapi.weixin.qq.com/cgi-bin/message/send?access_token=" ++
          env.TokenStoreGetToken (corpId ++ agentId ++ channel_.Secret))
        (fillMessageRequest channel_.Other message
          (if message.To ≠ "" then
            { wechatCorpMessageRequest.init channel_.AccountId agentId with ToUser := message.To }
           else wechatCorpMessageRequest.init channel_.AccountId agentId))] := by
  simp only [SendWeChatCorpMessage, hp]
  split
  · rfl
  · rfl
  · split <;> rfl

/-- The posted `msgtype` is the dialect of `specDialect`, empty when the
policy names none. -/
theorem send_trace (env : SendEnv) (message : Message) (user : User) (channel_ : Channel)
    (corpId agentId : String)
    (hp : parseWechatCorpAccountAppId channel_.AppId = (corpId, agentId, none)) :
    ∃ url body,
      (SendWeChatCorpMessage env (some message) (some user) (some channel_)).trace =
        [SendEvent.TokenStoreGetToken (corpId ++ agentId ++ channel_.Secret),
         SendEvent.httpPost url body] ∧
      body.MessageType = (specDialect channel_.Other message).getD "" := by
  refine ⟨_, _, send_trace_eq env message user channel_ corpId agentId hp, ?_⟩
  · have hinit : ∀ r : wechatCorpMessageRequest, r.MessageType = "" →
        (fillMessageRequest channel_.Other message r).MessageType =
          (specDialect channel_.Other message).getD "" := by
      intro r hr
      unfold fillMessageRequest specDialect
      by_cases hplug : channel_.Other = "plugin"
      · simp only [hplug, if_true]
        cases hA : message.Articles with
        | nil =>
          by_cases ht : message.Title = ""
          · by_cases hc : message.Content = "" <;> simp [ht, hc, hr]
          · simp [ht]
        | cons a as =>
          by_cases hm : a.Content ≠ "" ∧ a.ThumbMediaID ≠ ""
          · simp only [if_pos hm]; rfl
          · simp only [if_neg hm]; rfl
      · simp only [if_neg hplug]
        by_cases hc : message.Content = "" <;> simp [hc, hr]
    apply hinit
    by_cases hto : message.To = "" <;> simp [hto, wechatCorpMessageRequest.init]

theorem parse_eq_of_ok (appId : String) (h : (parseWechatCorpAccountAppId appId).2.2 = none) :
    parseWechatCorpAccountAppId appId =
      ((parseWechatCorpAccountAppId appId).1, (parseWechatCorpAccountAppId appId).2.1, none) := by
  rcases hp : parseWechatCorpAccountAppId appId with ⟨a, b, e⟩
  rw [hp] at h
  simp only at h
  rw [h]

/-- C1. For a channel whose app id holds exactly one `|`, whenever the
format-selection policy of the specification names a dialect `d` for the
channel discriminator and the message, `SendWeChatCorpMessage` posts exactly
one request and its `msgtype` is `d`. -/
theorem SendWeChatCorpMessage_msgtype_policy (env : SendEnv) (message : Message) (user : User)
    (channel_ : Channel) (d : String)
    (happ : channel_.AppId.data.count '|' = 1)
    (hd : specDialect channel_.Other message = some d) :
    postedMessageTypes
      (SendWeChatCorpMessage env (some message) (some user) (some channel_)).trace = [d] := by
  obtain ⟨url, body, htr, hty⟩ := send_trace env message user channel_ _ _
    (parse_eq_of_ok _ (parse_ok_of_count _ happ))
  rw [htr, hd] at *
  simp [postedMessageTypes, hty]

/-- C1, at a `plugin` channel with app id `X|Y` and a message that carries
only a title: the request goes out as `textcard`. -/
theorem SendWeChatCorpMessage_msgtype_policy_witness :
    postedMessageTypes
      (SendWeChatCorpMessage sampleSendEnv (some titleOnlyMessage) (some sampleUser)
        (some (sampleChannel "X|Y" "plugin"))).trace = ["textcard"] :=
  SendWeChatCorpMessage_msgtype_policy sampleSendEnv titleOnlyMessage sampleUser
    (sampleChannel "X|Y" "plugin") "textcard" (by decide) (by decide)

/-- C2 as stated fails: on a channel whose discriminator is `app` (not
`plugin`), with the well-formed app id `X|Y`, a message that has a title, no
articles and no content is posted with an empty `msgtype`, not `textcard`. -/
theorem SendWeChatCorpMessage_title_only_app_channel :
    titleOnlyMessage.Title ≠ "" ∧ titleOnlyMessage.Articles = [] ∧
    titleOnlyMessage.Content = "" ∧
    postedMessageTypes
      (SendWeChatCorpMessage sampleSendEnv (some titleOnlyMessage) (some sampleUser)
        (some (sampleChannel "X|Y" "app"))).trace = [""] ∧
    postedMessageTypes
      (SendWeChatCorpMessage sampleSendEnv (some titleOnlyMessage) (some sampleUser)
        (some (sampleChannel "X|Y" "app"))).trace ≠ ["textcard"] := by
  decide

/-- C2, amended. On a channel whose discriminator is `plugin` and whose app id
holds exactly one `|`, a message with a non-empty title, no articles and no
content is posted in exactly one request, with `msgtype` `textcard`. -/
theorem SendWeChatCorpMessage_title_only_plugin (env : SendEnv) (message : Message)
    (user : User) (channel_ : Channel)
    (happ : channel_.AppId.data.count '|' = 1)
    (hplug : channel_.Other = "plugin")
    (ht : message.Title ≠ "") (ha : message.Articles = []) (_hc : message.Content = "") :
    postedMessageTypes
      (SendWeChatCorpMessage env (some message) (some user) (some channel_)).trace =
        ["textcard"] := by
  obtain ⟨url, body, htr, hty⟩ := send_trace env message user channel_ _ _
    (parse_eq_of_ok _ (parse_ok_of_count _ happ))
  have hd : specDialect channel_.Other message = some "textcard" := by
    simp [specDialect, hplug, ha, ht]
  rw [htr]
  rw [hd] at hty
  simp [postedMessageTypes, hty]

/-- C2, amended, at the `plugin` channel `X|Y` and the title-only message. -/
theorem SendWeChatCorpMessage_title_only_plugin_witness :
    postedMessageTypes
      (SendWeChatCorpMessage sampleSendEnv (some titleOnlyMessage) (some sampleUser)
        (some (sampleChannel "X|Y" "plugin"))).trace = ["textcard"] :=
  SendWeChatCorpMessage_title_only_plugin sampleSendEnv titleOnlyMessage sampleUser
    (sampleChannel "X|Y" "plugin") (by decide) (by decide) (by decide) (by decide) (by decide)

/-- C9. Two channels configured with the same secret `S` and the same
well-formed app id `X|Y` (neither `X` nor `Y` holds a `|`): whatever the
messages, users and environments, each send looks up the token store exactly
once, both under the same key, and that key is `Key()` of the token-store item
with `CorpId = X`, `AgentId = Y`, `AgentSecret = S`. -/
theorem SendWeChatCorpMessage_shared_cache_key (envA envB : SendEnv) (mA mB : Message)
    (uA uB : User) (A B : Channel) (X Y S token : String)
    (hX : '|' ∉ X.data) (hY : '|' ∉ Y.data)
    (hA : A.AppId = X ++ "|" ++ Y) (hB : B.AppId = X ++ "|" ++ Y)
    (hAs : A.Secret = S) (hBs : B.Secret = S) :
    lookedUpKeys (SendWeChatCorpMessage envA (some mA) (some uA) (some A)).trace =
      [WeChatCorpAccountTokenStoreItem.Key
        { CorpId := X, AgentSecret := S, AgentId := Y, AccessToken := token }] ∧
    lookedUpKeys (SendWeChatCorpMessage envB (some mB) (some uB) (some B)).trace =
      [WeChatCorpAccountTokenStoreItem.Key
        { CorpId := X, AgentSecret := S, AgentId := Y, AccessToken := token }] := by
  have hpA : parseWechatCorpAccountAppId A.AppId = (X, Y, none) := by
    rw [hA]; exact parse_wellformed X Y hX hY
  have hpB : parseWechatCorpAccountAppId B.AppId = (X, Y, none) := by
    rw [hB]; exact parse_wellformed X Y hX hY
  rw [send_trace_eq envA mA uA A X Y hpA, send_trace_eq envB mB uB B X Y hpB, hAs, hBs]
  simp [lookedUpKeys, WeChatCorpAccountTokenStoreItem.Key]

/-- C9, at two channels that differ in name, recipient and discriminator but
share the secret `S` and the app id `X|Y`. -/
theorem SendWeChatCorpMessage_shared_cache_key_witness :
    lookedUpKeys (SendWeChatCorpMessage sampleSendEnv (some titleOnlyMessage) (some sampleUser)
        (some (sampleChannel "X|Y" "plugin"))).trace =
      [WeChatCorpAccountTokenStoreItem.Key
        { CorpId := "X", AgentSecret := "S", AgentId := "Y", AccessToken := "" }] ∧
    lookedUpKeys (SendWeChatCorpMessage sampleSendEnv (some emptyMessage) (some sampleUser)
        (some { sampleChannel "X|Y" "app" with Name := "B", AccountId := "bob" })).trace =
      [WeChatCorpAccountTokenStoreItem.Key
        { CorpId := "X", AgentSecret := "S", AgentId := "Y", AccessToken := "" }] :=
  SendWeChatCorpMessage_shared_cache_key sampleSendEnv sampleSendEnv titleOnlyMessage
    emptyMessage sampleUser sampleUser (sampleChannel "X|Y" "plugin")
    { sampleChannel "X|Y" "app" with Name := "B", AccountId := "bob" } "X" "Y" "S" ""
    (by decide) (by decide) (by decide) (by decide) (by decide) (by decide)

/-! ## The database model -/

theorem nextId_gt (rows : List Message) : ∀ row ∈ rows, row.Id < DB.nextId rows := by
  induction rows with
  | nil => simp
  | cons r rs ih =>
    intro row hrow
    have hstep : DB.nextId (r :: rs) = max r.Id (DB.nextId rs - 1) + 1 := by
      simp [DB.nextId]
    rw [hstep]
    rcases List.mem_cons.1 hrow with h | h
    · subst h
      have := le_max_left row.Id (DB.nextId rs - 1)
      omega
    · have h1 := ih row h
      have := le_max_right r.Id (DB.nextId rs - 1)
      omega

/-- An insert either fails and leaves table and id alone, or appends one row
whose id no stored row has. -/
theorem UpdateAndInsert_cases (fault : Option String) (now : Int) (message : Message)
    (userId : Int) (rows : List Message) :
    ((Message.UpdateAndInsert fault now message userId rows).1 ≠ none ∧
      (Message.UpdateAndInsert fault now message userId rows).2.1.Id = message.Id ∧
      (Message.UpdateAndInsert fault now message userId rows).2.2 = rows) ∨
    ((Message.UpdateAndInsert fault now message userId rows).1 = none ∧
      (∀ row ∈ rows, row.Id ≠ (Message.UpdateAndInsert fault now message userId rows).2.1.Id) ∧
      (Message.UpdateAndInsert fault now message userId rows).2.2 =
        rows ++ [DB.storedRow (Message.UpdateAndInsert fault now message userId rows).2.1]) := by
  unfold Message.UpdateAndInsert DB.Create
  cases fault with
  | some e => left; simp
  | none =>
    simp only
    split
    · left; simp
    · rename_i hpk
      split
      · left; simp
      · right
        refine ⟨rfl, ?_, rfl⟩
        by_cases hz : message.Id = 0
        · intro row hrow
          have := nextId_gt rows row hrow
          simp only [hz, if_true]
          omega
        · intro row hrow heq
          simp only [hz, if_false] at heq
          exact hpk ⟨hz, row, hrow, heq⟩

/-- A status update for a message whose id no row of `rows` has (or that has
no id) leaves `rows` in place at the front of the table. -/
theorem UpdateStatus_prefix (fault : Option String) (message : Message)
    (status : MessageSendStatus) (rows extra : List Message)
    (h : message.Id = 0 ∨ ∀ row ∈ rows, row.Id ≠ message.Id) :
    rows <+: (Message.UpdateStatus fault message status (rows ++ extra)).2 := by
  unfold Message.UpdateStatus DB.UpdateStatusColumn
  cases fault with
  | some e => exact List.prefix_append _ _
  | none =>
    simp only
    by_cases hz : message.Id = 0
    · simp [hz]
    · have hrows : ∀ row ∈ rows, row.Id ≠ message.Id := by
        rcases h with h | h
        · exact absurd h hz
        · exact h
      simp only [hz, if_false, List.map_append]
      have hmap : rows.map (fun row =>
          if row.Id = message.Id then { row with Status := status } else row) = rows := by
        conv_rhs => rw [← List.map_id rows]
        apply List.map_congr_left
        intro row hrow
        simp [hrows row hrow]
      rw [hmap]
      exact List.prefix_append _ _

/-! ## `saveAndSendMessage` -/

theorem deferredFinalization_err (env : Env) (f : Frame) :
    (deferredFinalization env f).err = f.err := by
  unfold deferredFinalization
  by_cases ha : f.message.Async = true <;> simp [ha]

theorem deferredFinalization_message (env : Env) (f : Frame) :
    (deferredFinalization env f).message = f.message := by
  unfold deferredFinalization
  by_cases ha : f.message.Async = true <;> simp [ha]

theorem deferredFinalization_trace (env : Env) (f : Frame) :
    (deferredFinalization env f).trace =
      f.trace ++
        Event.UpdateStatus f.message.Id
          (if f.message.Async then MessageSendStatus.AsyncPending
           else if f.success then MessageSendStatus.Sent else MessageSendStatus.Failed) ::
        (if f.message.Async then [Event.Enqueue f.message.Id] else []) := by
  unfold deferredFinalization
  by_cases ha : f.message.Async = true <;> simp [ha]

theorem deferredFinalization_queue (env : Env) (f : Frame) :
    (deferredFinalization env f).world.AsyncMessageQueue =
      f.world.AsyncMessageQueue ++ (if f.message.Async then [f.message.Id] else []) := by
  unfold deferredFinalization
  by_cases ha : f.message.Async = true <;> simp [ha]

theorem deferredFinalization_messages (env : Env) (f : Frame) :
    (deferredFinalization env f).world.messages =
      (Message.UpdateStatus env.faults.Update f.message
        (if f.message.Async then MessageSendStatus.AsyncPending
         else if f.success then MessageSendStatus.Sent else MessageSendStatus.Failed)
        f.world.messages).2 := by
  unfold deferredFinalization
  by_cases ha : f.message.Async = true <;> simp [ha]

theorem sendInline_message (env : Env) (user : User) (channel_ : Channel) (f : Frame) :
    (sendInline env user channel_ f).message = f.message := by
  unfold sendInline
  split
  · split <;> rfl
  · rfl

theorem sendInline_world (env : Env) (user : User) (channel_ : Channel) (f : Frame) :
    (sendInline env user channel_ f).world = f.world := by
  unfold sendInline
  split
  · split <;> rfl
  · rfl

theorem UpdateAndInsert_async (fault : Option String) (now : Int) (message : Message)
    (userId : Int) (rows : List Message) :
    (Message.UpdateAndInsert fault now message userId rows).2.1.Async = message.Async := by
  unfold Message.UpdateAndInsert DB.Create
  cases fault with
  | some e => rfl
  | none =>
    simp only
    split
    · rfl
    · split
      · rfl
      · split <;> rfl

/-- C4. A request rejected on policy grounds (the channel is not enabled, or
the message is async while the persistence flag is off and the user is not
allowed to save messages) returns an error and performs no effect at all: no
insert, no status update, no enqueue, no channel send; the table and the
queue are as before. -/
theorem saveAndSendMessage_policy_rejection (env : Env) (user : User) (message : Message)
    (channel_ : Channel) (world : World)
    (h : channel_.Status ≠ env.ChannelStatusEnabled ∨
      (message.Async = true ∧ env.MessagePersistenceEnabled = false ∧
        user.SaveMessageToDatabase ≠ env.SaveMessageToDatabaseAllowed)) :
    (saveAndSendMessage env user message channel_ world).err ≠ none ∧
    (saveAndSendMessage env user message channel_ world).trace = [] ∧
    (saveAndSendMessage env user message channel_ world).world.messages = world.messages ∧
    (saveAndSendMessage env user message channel_ world).world.AsyncMessageQueue =
      world.AsyncMessageQueue := by
  unfold saveAndSendMessage
  by_cases hen : channel_.Status ≠ env.ChannelStatusEnabled
  · simp [hen]
  · rcases h with h | ⟨ha, hp, hu⟩
    · exact absurd h hen
    · have hen2 : channel_.Status = env.ChannelStatusEnabled := by simpa using hen
      by_cases hurl : message.URL = "" <;> simp [hen2, hp, hu, ha, hurl]

/-- C4, twice: an enabled channel refusing an async message when nothing
permits persistence, and a disabled channel. -/
theorem saveAndSendMessage_policy_rejection_witness :
    ((saveAndSendMessage noPersistenceEnv sampleUser asyncMessage
        (sampleChannel "X|Y" "plugin") emptyWorld).err ≠ none ∧
      (saveAndSendMessage noPersistenceEnv sampleUser asyncMessage
        (sampleChannel "X|Y" "plugin") emptyWorld).trace = [] ∧
      (saveAndSendMessage noPersistenceEnv sampleUser asyncMessage
        (sampleChannel "X|Y" "plugin") emptyWorld).world.messages = emptyWorld.messages ∧
      (saveAndSendMessage noPersistenceEnv sampleUser asyncMessage
        (sampleChannel "X|Y" "plugin") emptyWorld).world.AsyncMessageQueue =
          emptyWorld.AsyncMessageQueue) ∧
    (saveAndSendMessage sampleEnv sampleUser titleOnlyMessage
        { sampleChannel "X|Y" "plugin" with Status := 2 } emptyWorld).trace = [] :=
  ⟨saveAndSendMessage_policy_rejection noPersistenceEnv sampleUser asyncMessage
      (sampleChannel "X|Y" "plugin") emptyWorld (Or.inr (by decide)),
   (saveAndSendMessage_policy_rejection sampleEnv sampleUser titleOnlyMessage
      { sampleChannel "X|Y" "plugin" with Status := 2 } emptyWorld (Or.inl (by decide))).2.1⟩

/-- The shape of a call in the persistence branch: the message is inserted
(with its link and URL assigned, `m0`), and the deferred closure runs after
either the failed insert or the inline send. -/
theorem saveAndSendMessage_persist (env : Env) (user : User) (message : Message)
    (channel_ : Channel) (world : World)
    (hen : channel_.Status = env.ChannelStatusEnabled)
    (hp : env.MessagePersistenceEnabled = true ∨
      user.SaveMessageToDatabase = env.SaveMessageToDatabaseAllowed) :
    ∃ m0 : Message, m0.Async = message.Async ∧ m0.Id = message.Id ∧
      saveAndSendMessage env user message channel_ world =
        match Message.UpdateAndInsert env.faults.Create env.now m0 user.Id world.messages with
        | (some e, inserted, rows) =>
          deferredFinalization env
            { err := some e, success := false, message := inserted,
              world := { messages := rows, AsyncMessageQueue := world.AsyncMessageQueue,
                         MessageCount := world.MessageCount + 1 },
              trace := [Event.Insert inserted (some e)] }
        | (none, inserted, rows) =>
          deferredFinalization env
            (sendInline env user channel_
              { err := none, success := false, message := inserted,
                world := { messages := rows, AsyncMessageQueue := world.AsyncMessageQueue,
                           MessageCount := world.MessageCount + 1 },
                trace := [Event.Insert inserted none, Event.syncMessageToUser inserted] }) := by
  unfold saveAndSendMessage
  simp only [hen, ne_eq, not_true_eq_false, if_false, if_pos hp]
  refine ⟨if message.URL = "" then
      { message with Link := env.GetUUID,
                     URL := env.ServerAddress ++ "/message/" ++ env.GetUUID }
    else { message with Link := env.GetUUID }, ?_, ?_, ?_⟩
  · by_cases hurl : message.URL = "" <;> simp [hurl]
  · by_cases hurl : message.URL = "" <;> simp [hurl]
  · rcases hins : Message.UpdateAndInsert env.faults.Create env.now
      (if message.URL = "" then
        { message with Link := env.GetUUID,
                       URL := env.ServerAddress ++ "/message/" ++ env.GetUUID }
      else { message with Link := env.GetUUID }) user.Id world.messages
      with ⟨err, inserted, rows⟩
    cases err with
    | some e => rfl
    | none => rfl

/-- C6. When persistence applies and the channel is enabled, whichever way
the call returns, it issues exactly one status update: `async_pending` for an
async message, `sent` when the one synchronous send returned no error, and
`failed` otherwise, so never `pending`; and it pushes the message id onto the
async queue exactly once for an async message and not at all for a
synchronous one. -/
theorem saveAndSendMessage_finalizes_once (env : Env) (user : User) (message : Message)
    (channel_ : Channel) (world : World)
    (hen : channel_.Status = env.ChannelStatusEnabled)
    (hp : env.MessagePersistenceEnabled = true ∨
      user.SaveMessageToDatabase = env.SaveMessageToDatabaseAllowed) :
    statusUpdates (saveAndSendMessage env user message channel_ world).trace =
      [if message.Async then MessageSendStatus.AsyncPending
       else if sendOutcomes (saveAndSendMessage env user message channel_ world).trace = [none]
         then MessageSendStatus.Sent
       else MessageSendStatus.Failed] ∧
    MessageSendStatus.Pending ∉
      statusUpdates (saveAndSendMessage env user message channel_ world).trace ∧
    enqueuedIds (saveAndSendMessage env user message channel_ world).trace =
      (if message.Async then [(saveAndSendMessage env user message channel_ world).message.Id]
       else []) ∧
    (saveAndSendMessage env user message channel_ world).world.AsyncMessageQueue =
      world.AsyncMessageQueue ++
        enqueuedIds (saveAndSendMessage env user message channel_ world).trace := by
  obtain ⟨m0, ha, _, heq⟩ := saveAndSendMessage_persist env user message channel_ world hen hp
  rw [heq]
  have hasync := UpdateAndInsert_async env.faults.Create env.now m0 user.Id world.messages
  rcases hins : Message.UpdateAndInsert env.faults.Create env.now m0 user.Id world.messages
    with ⟨err, inserted, rows⟩
  rw [hins, ha] at hasync
  simp only at hasync
  cases err with
  | some e =>
    simp only [deferredFinalization_trace, deferredFinalization_queue,
      deferredFinalization_message, hasync]
    by_cases hm : message.Async = true <;>
      simp [hm, statusUpdates, enqueuedIds, sendOutcomes]
  | none =>
    simp only [deferredFinalization_trace, deferredFinalization_queue,
      deferredFinalization_message, sendInline_message, sendInline_world, hasync]
    by_cases hm : message.Async = true
    · simp [hm, sendInline, hasync, statusUpdates, enqueuedIds, sendOutcomes]
    · cases hsend : env.SendMessage inserted user channel_ <;>
        simp [hm, sendInline, hasync, hsend, statusUpdates, enqueuedIds, sendOutcomes]

/-- C6, at a synchronous message whose send succeeds: one update, to `sent`,
and nothing enqueued. -/
theorem saveAndSendMessage_finalizes_once_witness :
    statusUpdates (saveAndSendMessage sampleEnv sampleUser titleOnlyMessage
        (sampleChannel "X|Y" "plugin") emptyWorld).trace = [MessageSendStatus.Sent] ∧
    enqueuedIds (saveAndSendMessage sampleEnv sampleUser titleOnlyMessage
        (sampleChannel "X|Y" "plugin") emptyWorld).trace = [] := by
  have h := saveAndSendMessage_finalizes_once sampleEnv sampleUser titleOnlyMessage
    (sampleChannel "X|Y" "plugin") emptyWorld (by decide) (Or.inl (by decide))
  exact ⟨h.1.trans (by decide), h.2.2.1.trans (by decide)⟩

/-- C5. A synchronous message on an enabled channel, persistence applying:
when the insert succeeded and the channel send returned the error `e`, the
call returns `e` and its one status update writes `failed`, not `sent`. -/
theorem saveAndSendMessage_send_error (env : Env) (user : User) (message : Message)
    (channel_ : Channel) (world : World) (e : String)
    (hsync : message.Async = false)
    (hen : channel_.Status = env.ChannelStatusEnabled)
    (hp : env.MessagePersistenceEnabled = true ∨
      user.SaveMessageToDatabase = env.SaveMessageToDatabaseAllowed)
    (hins : insertOutcomes (saveAndSendMessage env user message channel_ world).trace = [none])
    (hsend : sendOutcomes (saveAndSendMessage env user message channel_ world).trace =
      [some e]) :
    (saveAndSendMessage env user message channel_ world).err = some e ∧
    statusUpdates (saveAndSendMessage env user message channel_ world).trace =
      [MessageSendStatus.Failed] ∧
    MessageSendStatus.Sent ∉
      statusUpdates (saveAndSendMessage env user message channel_ world).trace := by
  obtain ⟨m0, ha, _, heq⟩ := saveAndSendMessage_persist env user message channel_ world hen hp
  rw [heq] at hins hsend ⊢
  have hasync := UpdateAndInsert_async env.faults.Create env.now m0 user.Id world.messages
  rcases hres : Message.UpdateAndInsert env.faults.Create env.now m0 user.Id world.messages
    with ⟨err, inserted, rows⟩
  rw [hres, ha, hsync] at hasync
  simp only at hasync
  rw [hres] at hins hsend
  cases err with
  | some e' =>
    simp [deferredFinalization_trace, insertOutcomes, hasync] at hins
  | none =>
    simp only [deferredFinalization_trace, deferredFinalization_err] at hins hsend ⊢
    cases hs : env.SendMessage inserted user channel_ with
    | none =>
      simp [sendInline, hasync, hs, sendOutcomes] at hsend
    | some e' =>
      simp [sendInline, hasync, hs, sendOutcomes] at hsend
      subst hsend
      simp [sendInline, hasync, hs, statusUpdates]

/-- C5, at a channel whose send fails with `errcode 40014`. -/
theorem saveAndSendMessage_send_error_witness :
    (saveAndSendMessage sendFailsEnv sampleUser titleOnlyMessage
        (sampleChannel "X|Y" "plugin") emptyWorld).err = some "errcode 40014" ∧
    statusUpdates (saveAndSendMessage sendFailsEnv sampleUser titleOnlyMessage
        (sampleChannel "X|Y" "plugin") emptyWorld).trace = [MessageSendStatus.Failed] ∧
    MessageSendStatus.Sent ∉
      statusUpdates (saveAndSendMessage sendFailsEnv sampleUser titleOnlyMessage
        (sampleChannel "X|Y" "plugin") emptyWorld).trace :=
  saveAndSendMessage_send_error sendFailsEnv sampleUser titleOnlyMessage
    (sampleChannel "X|Y" "plugin") emptyWorld "errcode 40014" (by decide) (by decide)
    (Or.inl (by decide)) (by decide) (by decide)

/-- What the call does when the insert fails, for every message: it returns
the insert error and sends nothing; a synchronous message is not enqueued, an
async one is, by the deferred closure. -/
theorem saveAndSendMessage_insert_failure (env : Env) (user : User) (message : Message)
    (channel_ : Channel) (world : World) (e : String)
    (hins : insertOutcomes (saveAndSendMessage env user message channel_ world).trace =
      [some e]) :
    (saveAndSendMessage env user message channel_ world).err = some e ∧
    sendOutcomes (saveAndSendMessage env user message channel_ world).trace = [] ∧
    enqueuedIds (saveAndSendMessage env user message channel_ world).trace =
      (if message.Async then [message.Id] else []) := by
  by_cases hen : channel_.Status = env.ChannelStatusEnabled
  · by_cases hp : env.MessagePersistenceEnabled = true ∨
        user.SaveMessageToDatabase = env.SaveMessageToDatabaseAllowed
    · obtain ⟨m0, ha, hid, heq⟩ :=
        saveAndSendMessage_persist env user message channel_ world hen hp
      rw [heq] at hins ⊢
      have hasync := UpdateAndInsert_async env.faults.Create env.now m0 user.Id world.messages
      have hcases := UpdateAndInsert_cases env.faults.Create env.now m0 user.Id world.messages
      rcases hres : Message.UpdateAndInsert env.faults.Create env.now m0 user.Id world.messages
        with ⟨err, inserted, rows⟩
      rw [hres] at hasync hcases hins
      simp only at hasync hcases
      rw [ha] at hasync
      cases err with
      | some e' =>
        have hidd : inserted.Id = message.Id := by
          rcases hcases with h | h
          · rw [h.2.1, hid]
          · exact absurd h.1 (by simp)
        simp only [deferredFinalization_trace, deferredFinalization_err, hasync, hidd] at hins ⊢
        by_cases hm : message.Async = true <;>
          simp_all [insertOutcomes, sendOutcomes, enqueuedIds]
      | none =>
        simp only [deferredFinalization_trace] at hins
        cases hs : env.SendMessage inserted user channel_ <;>
          by_cases hm : message.Async = true <;>
          simp [sendInline, hasync, hs, hm, insertOutcomes] at hins
    · exfalso
      unfold saveAndSendMessage at hins
      simp only [hen, ne_eq, not_true_eq_false, if_false, if_neg hp] at hins
      by_cases hurl : message.URL = "" <;> by_cases hm : message.Async = true <;>
        simp [hurl, hm, sendInline, insertOutcomes] at hins
      all_goals
        split at hins <;> simp at hins
  · exfalso
    unfold saveAndSendMessage at hins
    simp [hen, insertOutcomes] at hins

/-- C7 fails on the code for an async message: with persistence on and a
database that refuses the insert, the call returns the insert error and sends
nothing, but the deferred closure still pushes the message id (0, the message
was never stored) onto the async queue. -/
theorem saveAndSendMessage_enqueues_after_failed_insert :
    (saveAndSendMessage insertFailsEnv sampleUser asyncMessage
        (sampleChannel "X|Y" "plugin") emptyWorld).err = some "database is locked" ∧
    insertOutcomes (saveAndSendMessage insertFailsEnv sampleUser asyncMessage
        (sampleChannel "X|Y" "plugin") emptyWorld).trace = [some "database is locked"] ∧
    sendOutcomes (saveAndSendMessage insertFailsEnv sampleUser asyncMessage
        (sampleChannel "X|Y" "plugin") emptyWorld).trace = [] ∧
    (saveAndSendMessage insertFailsEnv sampleUser asyncMessage
        (sampleChannel "X|Y" "plugin") emptyWorld).world.messages = [] ∧
    enqueuedIds (saveAndSendMessage insertFailsEnv sampleUser asyncMessage
        (sampleChannel "X|Y" "plugin") emptyWorld).trace = [0] ∧
    (saveAndSendMessage insertFailsEnv sampleUser asyncMessage
        (sampleChannel "X|Y" "plugin") emptyWorld).world.AsyncMessageQueue = [0] := by
  decide

/-! ## Status transitions -/

/-- The method `UpdateStatus` writes whatever it is given: on a table holding
one message with status `sent`, `UpdateStatus(failed)` for that message
returns no error and leaves the row with status `failed`. -/
theorem UpdateStatus_overwrites_sent :
    sentRow.Status = MessageSendStatus.Sent ∧
    (Message.UpdateStatus none sentRow MessageSendStatus.Failed [sentRow]).1 = none ∧
    (Message.UpdateStatus none sentRow MessageSendStatus.Failed [sentRow]).2.map
        (fun row => (row.Id, row.Status)) = [(1, MessageSendStatus.Failed)] := by
  decide

/-- The extent of the defect shown below: a call of `saveAndSendMessage` for a
message that does not carry the id of a stored row (its `Id` is 0, or no row
has it) leaves every row stored before the call as it was, status included;
the table afterwards starts with the table before. -/
theorem saveAndSendMessage_keeps_stored_rows (env : Env) (user : User) (message : Message)
    (channel_ : Channel) (world : World)
    (hid : message.Id = 0 ∨ ∀ row ∈ world.messages, row.Id ≠ message.Id) :
    world.messages <+: (saveAndSendMessage env user message channel_ world).world.messages := by
  by_cases hen : channel_.Status = env.ChannelStatusEnabled
  · by_cases hp : env.MessagePersistenceEnabled = true ∨
        user.SaveMessageToDatabase = env.SaveMessageToDatabaseAllowed
    · obtain ⟨m0, _, hm0, heq⟩ :=
        saveAndSendMessage_persist env user message channel_ world hen hp
      rw [heq]
      have hcases := UpdateAndInsert_cases env.faults.Create env.now m0 user.Id world.messages
      rcases hres : Message.UpdateAndInsert env.faults.Create env.now m0 user.Id world.messages
        with ⟨err, inserted, rows⟩
      rw [hres] at hcases
      simp only at hcases
      cases err with
      | some e =>
        rcases hcases with ⟨_, hidd, hrows⟩ | ⟨h, _⟩
        · simp only [deferredFinalization_messages]
          rw [hrows]
          have := UpdateStatus_prefix env.faults.Update inserted
            (if inserted.Async then MessageSendStatus.AsyncPending
             else if false then MessageSendStatus.Sent else MessageSendStatus.Failed)
            world.messages [] (by rw [hidd, hm0]; exact hid)
          simpa using this
        · exact absurd h (by simp)
      | none =>
        rcases hcases with ⟨h, _⟩ | ⟨_, hfresh, hrows⟩
        · exact absurd rfl h
        · simp only [deferredFinalization_messages, sendInline_message, sendInline_world]
          rw [hrows]
          exact UpdateStatus_prefix env.faults.Update inserted _ world.messages _
            (Or.inr hfresh)
    · unfold saveAndSendMessage
      simp only [hen, ne_eq, not_true_eq_false, if_false, if_neg hp]
      by_cases hurl : message.URL = "" <;> by_cases hm : message.Async = true <;>
        simp [hurl, hm, sendInline_world]
  · unfold saveAndSendMessage
    simp [hen]

/-- A resend-like call: a new message (`Id` 0) dispatched while the table
holds a `sent` row; the row is still first in the table, with status `sent`. -/
theorem saveAndSendMessage_keeps_stored_rows_witness :
    [sentRow] <+: (saveAndSendMessage sendFailsEnv sampleUser titleOnlyMessage
        (sampleChannel "X|Y" "plugin")
        { emptyWorld with messages := [sentRow] }).world.messages :=
  saveAndSendMessage_keeps_stored_rows sendFailsEnv sampleUser titleOnlyMessage
    (sampleChannel "X|Y" "plugin") { emptyWorld with messages := [sentRow] }
    (Or.inl (by decide))

/-- C8 fails on the code. The table holds one message of user 1 with id 1
and status `sent`.  User 2 pushes a message whose body carries the id 1: the
insert fails on the primary key, the call returns that error and sends
nothing, and the deferred closure, run on that return, issues its status
update for id 1: the stored row of user 1 goes from `sent` to `failed`.  With
the async flag set the row goes from `sent` to `async_pending` and its id is
pushed onto the async queue. -/
theorem saveAndSendMessage_overwrites_sent_row :
    sentWorld.messages.map (fun row => (row.Id, row.UserId, row.Status)) =
      [(1, 1, MessageSendStatus.Sent)] ∧
    (saveAndSendMessage sampleEnv otherUser pushWithStoredId
        (sampleChannel "X|Y" "plugin") sentWorld).err =
      some "UNIQUE constraint failed: messages.id" ∧
    sendOutcomes (saveAndSendMessage sampleEnv otherUser pushWithStoredId
        (sampleChannel "X|Y" "plugin") sentWorld).trace = [] ∧
    statusUpdates (saveAndSendMessage sampleEnv otherUser pushWithStoredId
        (sampleChannel "X|Y" "plugin") sentWorld).trace = [MessageSendStatus.Failed] ∧
    (saveAndSendMessage sampleEnv otherUser pushWithStoredId
        (sampleChannel "X|Y" "plugin") sentWorld).world.messages.map
          (fun row => (row.Id, row.UserId, row.Status)) =
      [(1, 1, MessageSendStatus.Failed)] ∧
    (saveAndSendMessage sampleEnv otherUser asyncPushWithStoredId
        (sampleChannel "X|Y" "plugin") sentWorld).world.messages.map
          (fun row => (row.Id, row.UserId, row.Status)) =
      [(1, 1, MessageSendStatus.AsyncPending)] ∧
    (saveAndSendMessage sampleEnv otherUser asyncPushWithStoredId
        (sampleChannel "X|Y" "plugin") sentWorld).world.AsyncMessageQueue = [1] := by
  decide

/-! ## `DeleteMessageById` -/

/-- C10. When `id` is 0, `userId` is 0, or no row has both the id `id` and
the owner `userId`, `DeleteMessageById` returns an error and the table is
unchanged.  And in a table whose ids are distinct, a row that is gone after
the call had the id `id` and the owner `userId`. -/
theorem DeleteMessageById_owner_check (faults : DBFaults) (id userId : Int)
    (rows : List Message) :
    ((id = 0 ∨ userId = 0 ∨ ∀ row ∈ rows, ¬ (row.Id = id ∧ row.UserId = userId)) →
      (DeleteMessageById faults id userId rows).1 ≠ none ∧
      (DeleteMessageById faults id userId rows).2 = rows) ∧
    ((rows.map fun row => row.Id).Nodup →
      ∀ row ∈ rows, row ∉ (DeleteMessageById faults id userId rows).2 →
        row.Id = id ∧ row.UserId = userId) := by
  constructor
  · intro h
    unfold DeleteMessageById
    by_cases hz : id = 0 ∨ userId = 0
    · simp [hz]
    · have hno : ∀ row ∈ rows, ¬ (row.Id = id ∧ row.UserId = userId) := by
        rcases h with h | h | h
        · exact absurd (Or.inl h) hz
        · exact absurd (Or.inr h) hz
        · exact h
      simp only [if_neg hz]
      unfold DB.FirstByIds
      cases faults.First with
      | some e => simp
      | none =>
        have hfind : rows.find? (fun row => decide (row.Id = id ∧ row.UserId = userId)) = none := by
          rw [List.find?_eq_none]
          intro row hrow
          simpa using hno row hrow
        simp only [hfind]
        simp
  · intro hnodup row hrow hgone
    unfold DeleteMessageById at hgone
    by_cases hz : id = 0 ∨ userId = 0
    · simp [hz] at hgone
      exact absurd hrow hgone
    · simp only [if_neg hz] at hgone
      unfold DB.FirstByIds at hgone
      cases hf : faults.First with
      | some e =>
        simp [hf] at hgone
        exact absurd hrow hgone
      | none =>
        simp only [hf] at hgone
        cases hfind : rows.find? (fun row => decide (row.Id = id ∧ row.UserId = userId)) with
        | none =>
          simp only [hfind] at hgone
          exact absurd hrow hgone
        | some found =>
          have hp := List.find?_some hfind
          have hmem := List.mem_of_find?_eq_some hfind
          simp only [decide_eq_true_eq] at hp
          simp only [hfind, Message.Delete, DB.Delete] at hgone
          cases hd : faults.Delete with
          | some e =>
            simp [hd] at hgone
            exact absurd hrow hgone
          | none =>
            simp only [hd] at hgone
            by_cases hfz : found.Id = 0
            · simp [hfz] at hgone
              exact absurd hrow hgone
            · simp only [if_neg hfz, List.mem_filter, not_and] at hgone
              have hsame : row.Id = found.Id := by
                have := hgone hrow
                simpa using this
              have hrf : row = found := List.inj_on_of_nodup_map hnodup hrow hmem hsame
              rw [hrf]
              exact hp

/-- C10, at a table holding one message of user 1: a delete for user 2 finds
nothing, returns an error and leaves the row; the second part applies too,
the ids being distinct. -/
theorem DeleteMessageById_owner_check_witness :
    ((DeleteMessageById noFaults 1 2 [sentRow]).1 ≠ none ∧
      (DeleteMessageById noFaults 1 2 [sentRow]).2 = [sentRow]) ∧
    (∀ row ∈ [sentRow], row ∉ (DeleteMessageById noFaults 1 1 [sentRow]).2 →
      row.Id = 1 ∧ row.UserId = 1) :=
  ⟨(DeleteMessageById_owner_check noFaults 1 2 [sentRow]).1 (by decide),
   (DeleteMessageById_owner_check noFaults 1 1 [sentRow]).2 (by decide)⟩

/-! ## `authMessage` -/

/-- With a channel token set, `authMessage` accepts exactly the message
tokens that equal the (non-empty) user token or the channel token. -/
theorem authMessage_channel_token (messageToken userToken token : String)
    (ht : token ≠ "") :
    authMessage messageToken userToken (some token) = true ↔
      (userToken ≠ "" ∧ messageToken = userToken) ∨ messageToken = token := by
  unfold authMessage
  by_cases hu : userToken = "" <;> by_cases hm : messageToken = userToken <;>
    by_cases hc : messageToken = token <;> simp [hu, hm, hc, ht]

/-- Without a channel token, `authMessage` accepts every message token,
whatever the user token. -/
theorem authMessage_no_channel_token (messageToken userToken : String) :
    authMessage messageToken userToken none = true ∧
    authMessage messageToken userToken (some "") = true := by
  unfold authMessage
  by_cases hu : userToken = "" <;> by_cases hm : messageToken = userToken <;> simp [hu, hm]

/-- C11 fails on the code: for a user who has set the token `user-secret`, on
a channel without a token, `authMessage` returns true for the empty message
token, and the authorization step of `processMessage` lets the request pass
instead of answering that a token must be provided. -/
theorem authMessage_accepts_empty_token :
    tokenUser.Token ≠ "" ∧
    authMessage "" tokenUser.Token none = true ∧
    authMessage "wrong" tokenUser.Token none = true ∧
    processMessageAuth true emptyMessage tokenUser (sampleChannel "X|Y" "plugin") = none := by
  decide

/-! ## The resend helper -/

/-- The helper of `ResendMessage` dereferences a `nil` message exactly when
the message id or the user id is 0. -/
theorem ResendMessage_helper_nil_iff (env : Env) (lookups : ResendEnv)
    (messageId userId : Int) (world : World) :
    ResendMessage_helper env lookups messageId userId world = HelperOutcome.nilDereference ↔
      messageId = 0 ∨ userId = 0 := by
  unfold ResendMessage_helper GetMessageByIds
  by_cases hz : messageId = 0 ∨ userId = 0
  · simp [hz]
  · simp only [if_neg hz, iff_false]
    cases DB.FirstByIds env.faults.First messageId userId world.messages with
    | error e => simpa [not_or] using hz
    | ok row =>
      simp only
      cases lookups.GetUserById userId with
      | error e => simpa [not_or] using hz
      | ok user =>
        simp only
        cases lookups.GetChannelByName row.Channel user.Id with
        | error e => simpa [not_or] using hz
        | ok channel_ => simpa [not_or] using hz

/-- C12 fails on the code: for the message id 0 (what a path parameter that
is not a number turns into) `GetMessageByIds` returns a `nil` message with an
error, and the helper writes `message.Id` through that `nil` pointer before
it looks at the error. -/
theorem ResendMessage_helper_nil_message :
    GetMessageByIds sampleEnv.faults.First 0 1 [sentRow] = (none, some "id 或 userId 为空！") ∧
    ResendMessage_helper sampleEnv sampleLookups 0 1 { emptyWorld with messages := [sentRow] } =
      HelperOutcome.nilDereference := by
  decide

/-! ## The credential-cache key -/

theorem String_length_data (s : String) : s.data.length = s.length := rfl

/-- Two token-store items whose corp ids have the same length and whose agent
ids have the same length have the same key only if they agree in corp id,
agent id and secret. -/
theorem Key_eq_of_lengths (i j : WeChatCorpAccountTokenStoreItem)
    (hc : i.CorpId.length = j.CorpId.length) (ha : i.AgentId.length = j.AgentId.length)
    (h : i.Key = j.Key) :
    i.CorpId = j.CorpId ∧ i.AgentId = j.AgentId ∧ i.AgentSecret = j.AgentSecret := by
  unfold WeChatCorpAccountTokenStoreItem.Key at h
  have h1 := congrArg String.data h
  simp only [String.data_append] at h1
  have hl : (i.CorpId.data ++ i.AgentId.data).length =
      (j.CorpId.data ++ j.AgentId.data).length := by
    simp only [List.length_append, String_length_data, hc, ha]
  obtain ⟨h2, h3⟩ := List.append_inj h1 hl
  obtain ⟨h4, h5⟩ := List.append_inj h2 (by simp only [String_length_data, hc])
  exact ⟨String.ext h4, String.ext h5, String.ext h3⟩

/-- C13 as stated fails: the credentials (`a`, `bc`, `S`) and (`ab`, `c`, `S`)
differ in corp id and agent id, yet `Key()` gives `abcS` for both, and sends
on channels with the app ids `a|bc` and `ab|c` and the secret `S` look up the
token store under that one key. -/
theorem Key_collision :
    ("a", "bc") ≠ ("ab", "c") ∧
    WeChatCorpAccountTokenStoreItem.Key
        { CorpId := "a", AgentSecret := "S", AgentId := "bc", AccessToken := "" } = "abcS" ∧
    WeChatCorpAccountTokenStoreItem.Key
        { CorpId := "ab", AgentSecret := "S", AgentId := "c", AccessToken := "" } = "abcS" ∧
    lookedUpKeys (SendWeChatCorpMessage sampleSendEnv (some titleOnlyMessage) (some sampleUser)
        (some (sampleChannel "a|bc" "plugin"))).trace = ["abcS"] ∧
    lookedUpKeys (SendWeChatCorpMessage sampleSendEnv (some titleOnlyMessage) (some sampleUser)
        (some (sampleChannel "ab|c" "plugin"))).trace = ["abcS"] := by
  decide

/-- C13, amended. For credentials whose corp ids have the same length and
whose agent ids have the same length, a difference in corp id, agent id or
secret gives different keys: `Key()` of the two token-store items differs,
and sends on channels configured with the two credentials (app ids `X|Y` and
`X'|Y'`, no `|` inside the parts) look up the token store under different
keys. -/
theorem Key_injective_on_equal_lengths (envA envB : SendEnv) (mA mB : Message)
    (uA uB : User) (A B : Channel) (X Y X' Y' tokenA tokenB : String)
    (hX : '|' ∉ X.data) (hY : '|' ∉ Y.data) (hX' : '|' ∉ X'.data) (hY' : '|' ∉ Y'.data)
    (hA : A.AppId = X ++ "|" ++ Y) (hB : B.AppId = X' ++ "|" ++ Y')
    (hc : X.length = X'.length) (ha : Y.length = Y'.length)
    (hne : X ≠ X' ∨ Y ≠ Y' ∨ A.Secret ≠ B.Secret) :
    WeChatCorpAccountTokenStoreItem.Key
        { CorpId := X, AgentSecret := A.Secret, AgentId := Y, AccessToken := tokenA } ≠
      WeChatCorpAccountTokenStoreItem.Key
        { CorpId := X', AgentSecret := B.Secret, AgentId := Y', AccessToken := tokenB } ∧
    lookedUpKeys (SendWeChatCorpMessage envA (some mA) (some uA) (some A)).trace ≠
      lookedUpKeys (SendWeChatCorpMessage envB (some mB) (some uB) (some B)).trace := by
  have hkey : WeChatCorpAccountTokenStoreItem.Key
        { CorpId := X, AgentSecret := A.Secret, AgentId := Y, AccessToken := tokenA } ≠
      WeChatCorpAccountTokenStoreItem.Key
        { CorpId := X', AgentSecret := B.Secret, AgentId := Y', AccessToken := tokenB } := by
    intro h
    obtain ⟨h1, h2, h3⟩ := Key_eq_of_lengths _ _ hc ha h
    rcases hne with hne | hne | hne
    · exact hne h1
    · exact hne h2
    · exact hne h3
  refine ⟨hkey, ?_⟩
  have hpA : parseWechatCorpAccountAppId A.AppId = (X, Y, none) := by
    rw [hA]; exact parse_wellformed X Y hX hY
  have hpB : parseWechatCorpAccountAppId B.AppId = (X', Y', none) := by
    rw [hB]; exact parse_wellformed X' Y' hX' hY'
  rw [send_trace_eq envA mA uA A X Y hpA, send_trace_eq envB mB uB B X' Y' hpB]
  intro h
  apply hkey
  simpa [lookedUpKeys, WeChatCorpAccountTokenStoreItem.Key] using h

/-- C13, amended, at the credentials (`X`, `Y`, `S`) and (`X`, `Z`, `S`),
which differ in the agent id only. -/
theorem Key_injective_on_equal_lengths_witness :
    WeChatCorpAccountTokenStoreItem.Key
        { CorpId := "X", AgentSecret := "S", AgentId := "Y", AccessToken := "" } ≠
      WeChatCorpAccountTokenStoreItem.Key
        { CorpId := "X", AgentSecret := "S", AgentId := "Z", AccessToken := "" } ∧
    lookedUpKeys (SendWeChatCorpMessage sampleSendEnv (some titleOnlyMessage) (some sampleUser)
        (some (sampleChannel "X|Y" "plugin"))).trace ≠
      lookedUpKeys (SendWeChatCorpMessage sampleSendEnv (some titleOnlyMessage) (some sampleUser)
        (some (sampleChannel "X|Z" "plugin"))).trace :=
  Key_injective_on_equal_lengths sampleSendEnv sampleSendEnv titleOnlyMessage titleOnlyMessage
    sampleUser sampleUser (sampleChannel "X|Y" "plugin") (sampleChannel "X|Z" "plugin")
    "X" "Y" "X" "Z" "" "" (by decide) (by decide) (by decide) (by decide) (by decide) (by decide)
    (by decide) (by decide) (Or.inr (Or.inl (by decide)))

end MessagePusher
